import Mathlib

/-!
Verification development for the NBJournal password-based encryption layer
(`Helpers/encryptor.py`) and its integration into the `Log` entity
(`DataClasses/log.py`).

Bytes are modelled as `List Nat` (each element a byte value). The library
primitives the code calls (`hashlib.pbkdf2_hmac`, `hmac.new(...).digest()`,
`AESGCM.encrypt` / `AESGCM.decrypt`, and `json.loads`-based payload parsing)
are modelled as a parameter bundle `CryptoPrimitives`, with their documented
contracts (digest lengths, AEAD tag length and round-trip) stated as
separate propositions. Everything written by the repository itself is
translated directly from the source.
-/

/-- UTF-8 byte sequence of a single character, as produced by
Python's `str.encode("utf-8")`. -/
def utf8Bytes (c : Char) : List Nat :=
  let n := c.toNat
  if n < 128 then [n]
  else if n < 2048 then [192 + n / 64, 128 + n % 64]
  else if n < 65536 then [224 + n / 4096, 128 + (n / 64) % 64, 128 + n % 64]
  else [240 + n / 262144, 128 + (n / 4096) % 64, 128 + (n / 64) % 64, 128 + n % 64]

/-- UTF-8 encoding of a string, as `str.encode("utf-8")`. -/
def utf8Encode (s : String) : List Nat :=
  (s.data.map utf8Bytes).flatten

/-- Character of the standard base64 alphabet at a given index
(`A-Z`, `a-z`, `0-9`, `+`, `/`). -/
def b64CharOf (n : Nat) : Char :=
  if n < 26 then Char.ofNat (65 + n)
  else if n < 52 then Char.ofNat (97 + (n - 26))
  else if n < 62 then Char.ofNat (48 + (n - 52))
  else if n = 62 then '+'
  else '/'

/-- Standard base64 encoding of a byte list, three input bytes per
four output characters, padded with `=` (models `base64.b64encode`). -/
def b64EncodeChars : List Nat → List Char
  | [] => []
  | [a] => [b64CharOf (a / 4), b64CharOf (a % 4 * 16), '=', '=']
  | [a, b] => [b64CharOf (a / 4), b64CharOf (a % 4 * 16 + b / 16), b64CharOf (b % 16 * 4), '=']
  | a :: b :: c :: rest =>
      b64CharOf (a / 4) :: b64CharOf (a % 4 * 16 + b / 16) ::
      b64CharOf (b % 16 * 4 + c / 64) :: b64CharOf (c % 64) :: b64EncodeChars rest

/-- Base64 text form of a byte list (models `base64.b64encode(...).decode("ascii")`). -/
def b64Encode (bytes : List Nat) : String :=
  String.mk (b64EncodeChars bytes)

/-- Index of a character in the standard base64 alphabet, if any. -/
def b64Index (c : Char) : Option Nat :=
  let n := c.toNat
  if 65 ≤ n ∧ n ≤ 90 then some (n - 65)
  else if 97 ≤ n ∧ n ≤ 122 then some (n - 97 + 26)
  else if 48 ≤ n ∧ n ≤ 57 then some (n - 48 + 52)
  else if c = '+' then some 62
  else if c = '/' then some 63
  else none

/-- Base64 decoding of a character list in four-character groups; fails on
input that is not a canonical base64 encoding (models the decoding done by
`base64.b64decode`, whose failures are `binascii.Error`, a `ValueError`). -/
def b64DecodeChars : List Char → Option (List Nat)
  | [] => some []
  | a :: b :: c :: d :: rest =>
      match b64Index a, b64Index b with
      | some x, some y =>
          if c = '=' ∧ d = '=' ∧ rest = [] then some [x * 4 + y / 16]
          else
            match b64Index c with
            | some z =>
                if d = '=' ∧ rest = [] then some [x * 4 + y / 16, y % 16 * 16 + z / 4]
                else
                  match b64Index d with
                  | some w =>
                      (b64DecodeChars rest).map
                        (fun t => (x * 4 + y / 16) :: (y % 16 * 16 + z / 4) :: (z % 4 * 64 + w) :: t)
                  | none => none
            | none => none
      | _, _ => none
  | _ => none

/-- Base64 decoding of a string (models `base64.b64decode(data.encode("ascii"))`). -/
def b64Decode (s : String) : Option (List Nat) :=
  b64DecodeChars s.data

/-- Lowercase hexadecimal digit, as used by `json.dumps` in control-character
escapes. -/
def hexDigit (n : Nat) : Char :=
  if n < 10 then Char.ofNat (48 + n) else Char.ofNat (87 + n)

/-- JSON escaping of one character as done by `json.dumps` with
`ensure_ascii=False`: quote, backslash and control characters are escaped,
everything else is emitted as-is. -/
def jsonEscapeChar (c : Char) : String :=
  if c = '"' then "\\\""
  else if c = '\\' then "\\\\"
  else if c = '\n' then "\\n"
  else if c = '\r' then "\\r"
  else if c = '\t' then "\\t"
  else if c = '\x08' then "\\b"
  else if c = '\x0c' then "\\f"
  else if c.toNat < 32 then "\\u00" ++ String.mk [hexDigit (c.toNat / 16), hexDigit (c.toNat % 16)]
  else String.mk [c]

/-- JSON string literal for a string value, per `json.dumps`. -/
def jsonQuote (s : String) : String :=
  "\"" ++ String.join (s.data.map jsonEscapeChar) ++ "\""

/-- Value of one entry of the sensitive-fields payload dict built by
`Log.encrypt_with_password`: either a text field or an empty mapping. -/
inductive PayloadValue where
  | text : String → PayloadValue
  | emptyMapping : PayloadValue
  deriving DecidableEq

/-- Serialization of one payload value, per `json.dumps`. -/
def dumpsPayloadValue : PayloadValue → String
  | .text s => jsonQuote s
  | .emptyMapping => "\x7b\x7d"

/-- Serialization of the payload dict with `json.dumps` default separators
(comma-space between items, colon-space between key and value). -/
def jsonDumpsPayload (fields : List (String × PayloadValue)) : String :=
  "\x7b" ++
    String.intercalate ", "
      (fields.map (fun kv => jsonQuote kv.fst ++ ": " ++ dumpsPayloadValue kv.snd)) ++
    "\x7d"

/-- Bundle of the library primitives called by `Helpers/encryptor.py` and
`DataClasses/log.py`: `hashlib.pbkdf2_hmac("sha256", pw, salt, iters, dklen)`,
`hmac.new(key, msg, hashlib.sha256).digest()`, `AESGCM(key).encrypt` and
`AESGCM(key).decrypt` (the ciphertext carries the 16-byte tag; decryption
returns `none` where the library raises), and the parsing of a decrypted
payload (`plaintext.decode("utf-8")`, `json.loads`, then
`payload.get("description", "")` / `payload.get("body", "")`; `none` where
that raises). -/
structure CryptoPrimitives where
  pbkdf2HmacSha256 : List Nat → List Nat → Nat → Nat → List Nat
  hmacSha256 : List Nat → List Nat → List Nat
  aesgcmEncrypt : List Nat → List Nat → List Nat → List Nat
  aesgcmDecrypt : List Nat → List Nat → List Nat → Option (List Nat)
  jsonLoadsPayload : List Nat → Option (String × String)

/-- Contract of `hashlib.pbkdf2_hmac`: the derived key has the requested
length. -/
def Pbkdf2Len (P : CryptoPrimitives) : Prop :=
  ∀ pw salt iters dklen, (P.pbkdf2HmacSha256 pw salt iters dklen).length = dklen

/-- Contract of HMAC-SHA-256: digests are 32 bytes. -/
def HmacLen (P : CryptoPrimitives) : Prop :=
  ∀ key msg, (P.hmacSha256 key msg).length = 32

/-- Contract of AES-GCM encryption: the output is the ciphertext followed by
a 16-byte authentication tag. -/
def AesGcmLen (P : CryptoPrimitives) : Prop :=
  ∀ key nonce pt, (P.aesgcmEncrypt key nonce pt).length = pt.length + 16

/-- Contract of AES-GCM: decrypting an untampered ciphertext with the same
key and nonce returns the original plaintext. -/
def AesGcmRoundTrip (P : CryptoPrimitives) : Prop :=
  ∀ key nonce pt, P.aesgcmDecrypt key nonce (P.aesgcmEncrypt key nonce pt) = some pt

/- Constants of Helpers/encryptor.py. -/

def _SALT_SIZE : Nat := 16
def _KEY_SIZE : Nat := 32
def _PBKDF2_ITERATIONS : Nat := 200000
def _NONCE_SIZE : Nat := 12

/-- The fixed message `b"password-check"` hashed for the password HMAC. -/
def passwordCheckMsg : List Nat := utf8Encode "password-check"

/-- Structured view of an encrypted payload (`EncryptedBlob` in
`Helpers/encryptor.py`). -/
structure EncryptedBlob where
  salt : List Nat
  password_hmac : List Nat
  nonce : List Nat
  ciphertext : List Nat
  deriving DecidableEq

/-- The two `ValueError`s raised by `EncryptedBlob.from_bytes`:
"Encrypted blob is too short or malformed." and
"Encrypted blob has no ciphertext payload.". -/
inductive ParseError where
  | tooShort : ParseError
  | emptyCiphertext : ParseError
  deriving DecidableEq

/-- `EncryptedBlob.to_bytes`: salt, password HMAC, nonce and ciphertext
concatenated. -/
def EncryptedBlob.to_bytes (b : EncryptedBlob) : List Nat :=
  b.salt ++ b.password_hmac ++ b.nonce ++ b.ciphertext

/-- `EncryptedBlob.from_bytes`: reject buffers shorter than
salt + check + nonce + minimum tag, slice out the four fields at fixed
offsets, and reject an empty ciphertext slice. -/
def EncryptedBlob.from_bytes (blob : List Nat) : Except ParseError EncryptedBlob :=
  if blob.length < _SALT_SIZE + 32 + _NONCE_SIZE + 16 then .error .tooShort
  else
    let salt := blob.take _SALT_SIZE
    let password_hmac := (blob.drop _SALT_SIZE).take 32
    let nonce := (blob.drop (_SALT_SIZE + 32)).take _NONCE_SIZE
    let ciphertext := blob.drop (_SALT_SIZE + 32 + _NONCE_SIZE)
    if ciphertext = [] then .error .emptyCiphertext
    else .ok { salt := salt, password_hmac := password_hmac, nonce := nonce, ciphertext := ciphertext }

/-- `_derive_key`: PBKDF2-HMAC-SHA-256 over the UTF-8 bytes of the password
and the salt, at the fixed iteration count, producing a key of `_KEY_SIZE`
bytes. -/
def _derive_key (P : CryptoPrimitives) (password : String) (salt : List Nat) : List Nat :=
  P.pbkdf2HmacSha256 (utf8Encode password) salt _PBKDF2_ITERATIONS _KEY_SIZE

/-- `encrypt`: derive a key from the password and a fresh salt, AES-GCM
encrypt the plaintext under a fresh nonce, compute the password HMAC and
concatenate the blob. The salt and nonce are the `os.urandom` draws, passed
explicitly here. -/
def encrypt (P : CryptoPrimitives) (password : String) (salt nonce plaintext : List Nat) :
    List Nat :=
  let key := _derive_key P password salt
  let ciphertext := P.aesgcmEncrypt key nonce plaintext
  let password_hmac := P.hmacSha256 key passwordCheckMsg
  (EncryptedBlob.mk salt password_hmac nonce ciphertext).to_bytes

/-- The distinct `ValueError`s surfaced by `decrypt` (and
`decrypt_from_base64`), keyed by their messages. -/
inductive DecryptError where
  | malformed : ParseError → DecryptError
  | wrongPassword : DecryptError
  | tamperedOrCorrupt : DecryptError
  | badBase64 : DecryptError
  deriving DecidableEq

/-- Message carried by each failure, as raised by the source. -/
def DecryptError.message : DecryptError → String
  | .malformed .tooShort => "Encrypted blob is too short or malformed."
  | .malformed .emptyCiphertext => "Encrypted blob has no ciphertext payload."
  | .wrongPassword => "Incorrect password for encrypted data."
  | .tamperedOrCorrupt => "Encrypted data is corrupted or has been tampered with."
  | .badBase64 => "Invalid base64-encoded data."

/-- `is_password_correct`: parse the blob (returning `False` on a
`ValueError`), derive the key, and compare the recomputed password HMAC with
the stored one (`hmac.compare_digest`). The ciphertext is never touched. -/
def is_password_correct (P : CryptoPrimitives) (password : String) (encrypted_blob : List Nat) :
    Bool :=
  match EncryptedBlob.from_bytes encrypted_blob with
  | .error _ => false
  | .ok blob =>
      let key := _derive_key P password blob.salt
      let expected := P.hmacSha256 key passwordCheckMsg
      decide (expected = blob.password_hmac)

/-- `decrypt`: parse the blob, derive the key, verify the password HMAC
first (failing with the wrong-password error without attempting AEAD
decryption), then AES-GCM decrypt and fail with the tampered-or-corrupt
error if tag verification fails. -/
def decrypt (P : CryptoPrimitives) (password : String) (encrypted_blob : List Nat) :
    Except DecryptError (List Nat) :=
  match EncryptedBlob.from_bytes encrypted_blob with
  | .error e => .error (.malformed e)
  | .ok blob =>
      let key := _derive_key P password blob.salt
      let expected_pw := P.hmacSha256 key passwordCheckMsg
      if expected_pw = blob.password_hmac then
        match P.aesgcmDecrypt key blob.nonce blob.ciphertext with
        | some plaintext => .ok plaintext
        | none => .error .tamperedOrCorrupt
      else .error .wrongPassword

/-- `encrypt_to_base64`: base64 text form of `encrypt`. -/
def encrypt_to_base64 (P : CryptoPrimitives) (password : String)
    (salt nonce plaintext : List Nat) : String :=
  b64Encode (encrypt P password salt nonce plaintext)

/-- `decrypt_from_base64`: base64-decode then `decrypt`. -/
def decrypt_from_base64 (P : CryptoPrimitives) (password : String) (data : String) :
    Except DecryptError (List Nat) :=
  match b64Decode data with
  | none => .error .badBase64
  | some bytes => decrypt P password bytes

/- Embedding of the encryption-related parts of DataClasses/log.py.
`save()` persists to disk and does not change any field; disk persistence is
outside the model, so the methods return the new field state. The fields not
touched by these methods (tags, timestamps, format version) behave exactly
like `name` and `path` and are represented by them. -/

/-- The `Log` entity fields involved in encryption. -/
structure Log where
  name : String
  description : String
  body : String
  path : String
  encrypted_payload : Option String
  deriving DecidableEq

/-- `Log.is_encrypted`: Python truthiness of `encrypted_payload`
(`None` and the empty string are both falsy). -/
def Log.is_encrypted (l : Log) : Bool :=
  match l.encrypted_payload with
  | none => false
  | some s => if s = "" then false else true

/-- The placeholder text substituted for `description` and `body` while a
log is encrypted. -/
def encryptedPlaceholder : String :=
  "This log has been encrypted. Decrypt this log to view its contents"

/-- The sensitive-fields payload dict built by `Log.encrypt_with_password`:
`description` and `body` as text, plus an `attachments` entry that is always
the empty dict. -/
def logPayload (description body : String) : List (String × PayloadValue) :=
  [("description", .text description), ("body", .text body), ("attachments", .emptyMapping)]

/-- `Log.encrypt_with_password`: skip if already encrypted; otherwise
serialize the payload dict as UTF-8 JSON, encrypt it to base64 under the
password (the salt and nonce are the `os.urandom` draws inside `encrypt`),
store it in `encrypted_payload` and replace `description` and `body` with
the placeholder. -/
def Log.encrypt_with_password (P : CryptoPrimitives) (l : Log) (password : String)
    (salt nonce : List Nat) : Log :=
  if l.is_encrypted then l
  else
    let plaintext := utf8Encode (jsonDumpsPayload (logPayload l.description l.body))
    let encrypted_b64 := encrypt_to_base64 P password salt nonce plaintext
    { l with
        encrypted_payload := some encrypted_b64,
        description := encryptedPlaceholder,
        body := encryptedPlaceholder }

/-- The failures of `Log.decrypt_with_password`: "Log is not encrypted.",
"Incorrect password or corrupted encrypted log data." and
"Failed to decode decrypted log payload.". -/
inductive LogDecryptError where
  | notEncrypted : LogDecryptError
  | wrongPasswordOrCorrupt : LogDecryptError
  | decodeFailed : LogDecryptError
  deriving DecidableEq

/-- `Log.decrypt_with_password`, with the post-call field state made
explicit: the result pairs the entity state after the call with the failure,
if any. Every `raise` happens before any field assignment, so each failure
branch returns the entity unchanged; on success `description` and `body`
are restored and `encrypted_payload` is cleared. -/
def Log.decrypt_with_password (P : CryptoPrimitives) (l : Log) (password : String) :
    Log × Option LogDecryptError :=
  match l.encrypted_payload with
  | none => (l, some .notEncrypted)
  | some payload =>
      if payload = "" then (l, some .notEncrypted)
      else
        match decrypt_from_base64 P password payload with
        | .error _ => (l, some .wrongPasswordOrCorrupt)
        | .ok plaintext =>
            match P.jsonLoadsPayload plaintext with
            | none => (l, some .decodeFailed)
            | some fields =>
                ({ l with
                    description := fields.fst,
                    body := fields.snd,
                    encrypted_payload := none }, none)

/- A small concrete instantiation of the library primitives, used to
evaluate the development on explicit inputs. It satisfies the length and
round-trip contracts stated above. -/

/-- Toy digest accumulator over a byte list. -/
def mixBytes (xs : List Nat) : Nat :=
  xs.foldl (fun a b => (a * 31 + b) % 256) 7

/-- Toy PBKDF2: a key of the requested length, depending on password bytes,
salt and iteration count. -/
def toyPbkdf2 (pw salt : List Nat) (iters dklen : Nat) : List Nat :=
  (List.range dklen).map (fun i => (mixBytes pw * 3 + mixBytes salt * 5 + iters + i) % 256)

/-- Toy HMAC: a 32-byte digest depending byte-wise on the key and on the
message. -/
def toyHmac (key msg : List Nat) : List Nat :=
  (List.range 32).map (fun i => (key.getD i 0 * 3 + mixBytes msg * 11 + i) % 256)

/-- Toy authentication tag of 16 bytes over key, nonce and plaintext. -/
def toyTag (key nonce pt : List Nat) : List Nat :=
  (List.range 16).map
    (fun i => (key.getD i 0 * 5 + nonce.getD i 0 * 7 + mixBytes pt * 19 + pt.getD i 0 * 23 + i) % 256)

/-- Toy AEAD encryption: plaintext followed by its 16-byte tag. -/
def toyAeadEnc (key nonce pt : List Nat) : List Nat :=
  pt ++ toyTag key nonce pt

/-- Toy AEAD decryption: strip and verify the 16-byte tag, failing when it
does not match. -/
def toyAeadDec (key nonce ct : List Nat) : Option (List Nat) :=
  if 16 ≤ ct.length then
    if ct.drop (ct.length - 16) = toyTag key nonce (ct.take (ct.length - 16)) then
      some (ct.take (ct.length - 16))
    else none
  else none

/-- Toy payload parser: rejects every plaintext. -/
def toyJsonLoads (_bytes : List Nat) : Option (String × String) :=
  none

/-- The toy primitive bundle. -/
def toyPrims : CryptoPrimitives :=
  { pbkdf2HmacSha256 := toyPbkdf2,
    hmacSha256 := toyHmac,
    aesgcmEncrypt := toyAeadEnc,
    aesgcmDecrypt := toyAeadDec,
    jsonLoadsPayload := toyJsonLoads }

/-- Decidable equality of fallible results, for evaluating the development
on concrete inputs. -/
instance (ε α : Type) [DecidableEq ε] [DecidableEq α] : DecidableEq (Except ε α) :=
  fun x y =>
    match x, y with
    | .error e₁, .error e₂ =>
        if h : e₁ = e₂ then .isTrue (by rw [h]) else .isFalse (by intro hc; cases hc; exact h rfl)
    | .ok a₁, .ok a₂ =>
        if h : a₁ = a₂ then .isTrue (by rw [h]) else .isFalse (by intro hc; cases hc; exact h rfl)
    | .error _, .ok _ => .isFalse (by intro hc; cases hc)
    | .ok _, .error _ => .isFalse (by intro hc; cases hc)

/-- Concrete blob used to exercise the wrong-password branch. -/
def c3Blob : List Nat :=
  encrypt toyPrims "pw" (List.replicate 16 0) (List.replicate 12 0) [1, 2, 3]

/-- Parsed view of `c3Blob`. -/
def c3Parsed : EncryptedBlob :=
  ⟨c3Blob.take 16, (c3Blob.drop 16).take 32, (c3Blob.drop 48).take 12, c3Blob.drop 60⟩

/-- Copy of `c3Blob` with its last byte (part of the tag) incremented,
exercising the tampered branch. -/
def c3Tampered : List Nat :=
  c3Blob.dropLast ++ [(c3Blob.getLast?.getD 0 + 1) % 256]

/-- Parsed view of `c3Tampered`. -/
def c3TamperedParsed : EncryptedBlob :=
  ⟨c3Tampered.take 16, (c3Tampered.drop 16).take 32, (c3Tampered.drop 48).take 12,
    c3Tampered.drop 60⟩

/-- Concrete unencrypted log used to evaluate entity-level encryption. -/
def c7Log : Log :=
  { name := "title", description := "d", body := "b", path := "log.json",
    encrypted_payload := none }

/-- Concrete log whose stored payload decodes to a 3-byte buffer, making
decryption fail. -/
def c8Log : Log :=
  { name := "title", description := encryptedPlaceholder, body := encryptedPlaceholder,
    path := "log.json", encrypted_payload := some "AAAA" }

/-- Concrete unencrypted log used to evaluate the payload mapping. -/
def c9Log : Log :=
  { name := "title", description := "d", body := "hello world", path := "log.json",
    encrypted_payload := none }

/- Helper lemmas. -/

/-- Taking exactly the length of the left part of an append returns it. -/
theorem take_append_eq (l₁ l₂ : List Nat) (n : Nat) (h : l₁.length = n) :
    (l₁ ++ l₂).take n = l₁ := by
  subst h
  induction l₁ with
  | nil => rfl
  | cons a t ih => simp [List.take, ih]

/-- Dropping exactly the length of the left part of an append returns the
right part. -/
theorem drop_append_eq (l₁ l₂ : List Nat) (n : Nat) (h : l₁.length = n) :
    (l₁ ++ l₂).drop n = l₂ := by
  subst h
  induction l₁ with
  | nil => rfl
  | cons a t ih => simp [List.drop, ih]

/-- Parsing the serialized form of a well-sized blob recovers the blob. -/
theorem from_bytes_to_bytes (b : EncryptedBlob)
    (hs : b.salt.length = 16) (hh : b.password_hmac.length = 32)
    (hn : b.nonce.length = 12) (hc : 16 ≤ b.ciphertext.length) :
    EncryptedBlob.from_bytes b.to_bytes = .ok b := by
  obtain ⟨s, h, n, c⟩ := b
  simp only at hs hh hn hc
  have hblob : EncryptedBlob.to_bytes ⟨s, h, n, c⟩ = s ++ (h ++ (n ++ c)) := by
    simp [EncryptedBlob.to_bytes, List.append_assoc]
  have hlen : (s ++ (h ++ (n ++ c))).length = 60 + c.length := by
    simp [List.length_append, hs, hh, hn]; omega
  have h16 : (s ++ (h ++ (n ++ c))).take 16 = s := take_append_eq s _ 16 hs
  have hd16 : (s ++ (h ++ (n ++ c))).drop 16 = h ++ (n ++ c) := drop_append_eq s _ 16 hs
  have h32 : (h ++ (n ++ c)).take 32 = h := take_append_eq h _ 32 hh
  have hd48 : (s ++ (h ++ (n ++ c))).drop 48 = n ++ c := by
    have : (s ++ (h ++ (n ++ c))) = (s ++ h) ++ (n ++ c) := by simp [List.append_assoc]
    rw [this]
    exact drop_append_eq (s ++ h) _ 48 (by simp [List.length_append, hs, hh])
  have h12 : (n ++ c).take 12 = n := take_append_eq n _ 12 hn
  have hd60 : (s ++ (h ++ (n ++ c))).drop 60 = c := by
    have : (s ++ (h ++ (n ++ c))) = ((s ++ h) ++ n) ++ c := by simp [List.append_assoc]
    rw [this]
    exact drop_append_eq ((s ++ h) ++ n) _ 60 (by simp [List.length_append, hs, hh, hn])
  have hcne : c ≠ [] := by
    intro hnil
    rw [hnil] at hc
    simp at hc
  rw [hblob]
  unfold EncryptedBlob.from_bytes
  rw [if_neg (by rw [hlen]; simp [_SALT_SIZE, _NONCE_SIZE]; omega)]
  simp only [_SALT_SIZE, _NONCE_SIZE]
  rw [h16, hd16, h32, hd48, h12, hd60]
  rw [if_neg hcne]

/-- The toy PBKDF2 meets the derived-key-length contract. -/
theorem toy_pbkdf2_len : Pbkdf2Len toyPrims := by
  intro pw salt iters dklen
  simp [toyPrims, toyPbkdf2]

/-- The toy HMAC meets the 32-byte digest contract. -/
theorem toy_hmac_len : HmacLen toyPrims := by
  intro key msg
  simp [toyPrims, toyHmac]

/-- The toy tag is 16 bytes long. -/
theorem toyTag_length (key nonce pt : List Nat) : (toyTag key nonce pt).length = 16 := by
  simp [toyTag]

/-- The toy AEAD meets the tag-length contract. -/
theorem toy_aead_len : AesGcmLen toyPrims := by
  intro key nonce pt
  simp [toyPrims, toyAeadEnc, toyTag_length]

/-- The toy AEAD meets the round-trip contract. -/
theorem toy_aead_roundtrip : AesGcmRoundTrip toyPrims := by
  intro key nonce pt
  show toyAeadDec key nonce (toyAeadEnc key nonce pt) = some pt
  unfold toyAeadDec toyAeadEnc
  have hlen : (pt ++ toyTag key nonce pt).length = pt.length + 16 := by
    simp [toyTag_length]
  rw [hlen]
  rw [if_pos (by omega)]
  have hsub : pt.length + 16 - 16 = pt.length := by omega
  rw [hsub]
  rw [take_append_eq pt _ pt.length rfl, drop_append_eq pt _ pt.length rfl]
  rw [if_pos rfl]

/-- Base64 encoding of a nonempty byte list is a nonempty character list. -/
theorem b64EncodeChars_ne_nil (bytes : List Nat) (h : bytes ≠ []) :
    b64EncodeChars bytes ≠ [] := by
  match bytes with
  | [] => exact absurd rfl h
  | [a] => simp [b64EncodeChars]
  | [a, b] => simp [b64EncodeChars]
  | a :: b :: c :: rest => simp [b64EncodeChars]

/-- Base64 encoding of a nonempty byte list is a nonempty string. -/
theorem b64Encode_ne_empty (bytes : List Nat) (h : bytes ≠ []) :
    b64Encode bytes ≠ "" := by
  unfold b64Encode
  intro hcontra
  have hdata : b64EncodeChars bytes = [] := by
    have := congrArg String.data hcontra
    simpa using this
  exact b64EncodeChars_ne_nil bytes h hdata

/-- The serialized blob produced by `encrypt` is nonempty whenever the HMAC
primitive meets its digest-length contract. -/
theorem encrypt_ne_nil (P : CryptoPrimitives) (hH : HmacLen P)
    (password : String) (salt nonce plaintext : List Nat) :
    encrypt P password salt nonce plaintext ≠ [] := by
  unfold encrypt EncryptedBlob.to_bytes
  intro hcontra
  have hlen := congrArg List.length hcontra
  simp only [List.length_append, List.length_nil] at hlen
  rw [hH] at hlen
  omega

/-- Reduction of `decrypt` once the blob parses. -/
theorem decrypt_eq_of_from_bytes (P : CryptoPrimitives) (password : String)
    (blob : List Nat) (b : EncryptedBlob)
    (hfb : EncryptedBlob.from_bytes blob = .ok b) :
    decrypt P password blob =
      (if P.hmacSha256 (_derive_key P password b.salt) passwordCheckMsg = b.password_hmac then
        match P.aesgcmDecrypt (_derive_key P password b.salt) b.nonce b.ciphertext with
        | some plaintext => .ok plaintext
        | none => .error .tamperedOrCorrupt
      else .error .wrongPassword) := by
  unfold decrypt
  rw [hfb]

/-- Reduction of `decrypt` when the blob fails to parse. -/
theorem decrypt_eq_of_parse_error (P : CryptoPrimitives) (password : String)
    (blob : List Nat) (e : ParseError)
    (hfb : EncryptedBlob.from_bytes blob = .error e) :
    decrypt P password blob = .error (.malformed e) := by
  unfold decrypt
  rw [hfb]

/-- Reduction of `is_password_correct` once the blob parses. -/
theorem gate_eq_of_from_bytes (P : CryptoPrimitives) (password : String)
    (blob : List Nat) (b : EncryptedBlob)
    (hfb : EncryptedBlob.from_bytes blob = .ok b) :
    is_password_correct P password blob =
      decide (P.hmacSha256 (_derive_key P password b.salt) passwordCheckMsg = b.password_hmac) := by
  unfold is_password_correct
  rw [hfb]

/-- Reduction of `is_password_correct` when the blob fails to parse. -/
theorem gate_eq_of_parse_error (P : CryptoPrimitives) (password : String)
    (blob : List Nat) (e : ParseError)
    (hfb : EncryptedBlob.from_bytes blob = .error e) :
    is_password_correct P password blob = false := by
  unfold is_password_correct
  rw [hfb]

/- Claim theorems. -/

/-- Claim C1: for every password and plaintext byte string (including the
empty string), and for any library primitives meeting the HMAC digest-length,
AEAD tag-length and AEAD round-trip contracts, decrypting the output of
`encrypt` with the same password returns exactly the original plaintext.
The salt and nonce are the `os.urandom` draws of `encrypt`, which always
have the fixed sizes 16 and 12. -/
theorem C1_encrypt_decrypt_round_trip (P : CryptoPrimitives)
    (hH : HmacLen P) (hL : AesGcmLen P) (hR : AesGcmRoundTrip P)
    (password : String) (salt nonce plaintext : List Nat)
    (hs : salt.length = _SALT_SIZE) (hn : nonce.length = _NONCE_SIZE) :
    decrypt P password (encrypt P password salt nonce plaintext) = .ok plaintext := by
  have hfb := from_bytes_to_bytes
    ⟨salt, P.hmacSha256 (_derive_key P password salt) passwordCheckMsg, nonce,
      P.aesgcmEncrypt (_derive_key P password salt) nonce plaintext⟩
    (by simpa [_SALT_SIZE] using hs) (hH _ _) (by simpa [_NONCE_SIZE] using hn)
    (by rw [hL]; omega)
  have henc : encrypt P password salt nonce plaintext =
      (EncryptedBlob.mk salt
        (P.hmacSha256 (_derive_key P password salt) passwordCheckMsg) nonce
        (P.aesgcmEncrypt (_derive_key P password salt) nonce plaintext)).to_bytes := rfl
  rw [henc]
  rw [decrypt_eq_of_from_bytes P password _ _ hfb]
  rw [if_pos rfl]
  rw [hR]

/-- Witness for C1 at concrete inputs: toy primitives, password `pw`,
plaintext `hi`. -/
theorem C1_witness :
    decrypt toyPrims "pw"
        (encrypt toyPrims "pw" (List.replicate 16 0) (List.replicate 12 0) (utf8Encode "hi")) =
      .ok (utf8Encode "hi") :=
  C1_encrypt_decrypt_round_trip toyPrims toy_hmac_len toy_aead_len toy_aead_roundtrip
    "pw" (List.replicate 16 0) (List.replicate 12 0) (utf8Encode "hi")
    (by decide) (by decide)

/-- Claim C2, corrected: the header is 60 bytes (16 salt + 32 password HMAC
+ 12 nonce), not 44, so for primitives meeting the HMAC digest-length and
AEAD tag-length contracts the output of `encrypt` is the plaintext length
plus 60 bytes of header plus 16 bytes of AEAD tag. -/
theorem C2_encrypt_length (P : CryptoPrimitives) (hH : HmacLen P) (hL : AesGcmLen P)
    (password : String) (salt nonce plaintext : List Nat)
    (hs : salt.length = _SALT_SIZE) (hn : nonce.length = _NONCE_SIZE) :
    (encrypt P password salt nonce plaintext).length = plaintext.length + 60 + 16 := by
  unfold encrypt EncryptedBlob.to_bytes
  simp only [List.length_append]
  rw [hs, hn, hH, hL]
  simp [_SALT_SIZE, _NONCE_SIZE]
  omega

/-- Witness for C2 at concrete inputs. -/
theorem C2_encrypt_length_witness :
    (encrypt toyPrims "pw" (List.replicate 16 0) (List.replicate 12 0) (utf8Encode "abc")).length =
      (utf8Encode "abc").length + 60 + 16 :=
  C2_encrypt_length toyPrims toy_hmac_len toy_aead_len "pw"
    (List.replicate 16 0) (List.replicate 12 0) (utf8Encode "abc") (by decide) (by decide)

/-- Counterexample to C2 as stated: at the empty plaintext, with primitives
meeting the genuine digest-length contracts, the output is 76 bytes, not
0 + 44 + 16 = 60. -/
theorem C2_counterexample :
    (encrypt toyPrims "p" (List.replicate 16 0) (List.replicate 12 0) []).length = 76 ∧
      ¬((encrypt toyPrims "p" (List.replicate 16 0) (List.replicate 12 0) []).length =
        (List.length ([] : List Nat)) + 44 + 16) := by
  constructor
  · decide
  · decide

/-- Claim C5: for every buffer shorter than 76 bytes, `decrypt` fails with
the malformed-blob error and `is_password_correct` returns `false`. Both
results are independent of the primitive bundle, so no cryptographic
operation influences them, and the fields are never sliced out. -/
theorem C5_short_buffer_rejected (P : CryptoPrimitives) (password : String)
    (blob : List Nat) (hshort : blob.length < _SALT_SIZE + 32 + _NONCE_SIZE + 16) :
    decrypt P password blob = .error (.malformed .tooShort) ∧
      is_password_correct P password blob = false := by
  have hfb : EncryptedBlob.from_bytes blob = .error .tooShort := by
    unfold EncryptedBlob.from_bytes
    rw [if_pos hshort]
  exact ⟨decrypt_eq_of_parse_error P password blob .tooShort hfb,
    gate_eq_of_parse_error P password blob .tooShort hfb⟩

/-- Witness for C5 at a concrete 10-byte buffer. -/
theorem C5_witness :
    decrypt toyPrims "pw" (List.replicate 10 0) = .error (.malformed .tooShort) ∧
      is_password_correct toyPrims "pw" (List.replicate 10 0) = false :=
  C5_short_buffer_rejected toyPrims "pw" (List.replicate 10 0) (by decide)

/-- Claim C6: `_derive_key` is a pure deterministic function of the password
and a 16-byte salt; it is exactly PBKDF2-HMAC-SHA-256 over the UTF-8
password bytes at the fixed iteration count 200000 with 32-byte output, and
identical inputs yield identical keys. -/
theorem C6_derive_key_deterministic (P : CryptoPrimitives) (hP : Pbkdf2Len P)
    (password : String) (salt : List Nat) (hs : salt.length = 16) :
    (_derive_key P password salt).length = 32 ∧
      _derive_key P password salt =
        P.pbkdf2HmacSha256 (utf8Encode password) salt 200000 32 ∧
      _PBKDF2_ITERATIONS = 200000 ∧ _KEY_SIZE = 32 ∧
      (∀ password2 salt2, password2 = password → salt2 = salt →
        _derive_key P password2 salt2 = _derive_key P password salt) := by
  refine ⟨?_, rfl, rfl, rfl, ?_⟩
  · unfold _derive_key
    rw [hP]
    rfl
  · intro password2 salt2 hpw hsalt
    rw [hpw, hsalt]

/-- Witness for C6 at concrete inputs. -/
theorem C6_witness :
    (_derive_key toyPrims "pw" (List.replicate 16 0)).length = 32 ∧
      _derive_key toyPrims "pw" (List.replicate 16 0) =
        toyPrims.pbkdf2HmacSha256 (utf8Encode "pw") (List.replicate 16 0) 200000 32 ∧
      _PBKDF2_ITERATIONS = 200000 ∧ _KEY_SIZE = 32 ∧
      (∀ password2 salt2, password2 = "pw" → salt2 = List.replicate 16 0 →
        _derive_key toyPrims password2 salt2 = _derive_key toyPrims "pw" (List.replicate 16 0)) :=
  C6_derive_key_deterministic toyPrims toy_pbkdf2_len "pw" (List.replicate 16 0) (by decide)

/-- Claim C10: the empty-ciphertext error branch of
`EncryptedBlob.from_bytes` is unreachable: every buffer either fails the
minimum-length check with the too-short error, or parses with a ciphertext
slice of at least 16 bytes. -/
theorem C10_empty_ciphertext_unreachable (blob : List Nat) :
    EncryptedBlob.from_bytes blob ≠ .error .emptyCiphertext ∧
      (76 ≤ blob.length →
        ∃ b, EncryptedBlob.from_bytes blob = .ok b ∧ 16 ≤ b.ciphertext.length) := by
  by_cases hlen : blob.length < _SALT_SIZE + 32 + _NONCE_SIZE + 16
  · have hfb : EncryptedBlob.from_bytes blob = .error .tooShort := by
      unfold EncryptedBlob.from_bytes
      rw [if_pos hlen]
    constructor
    · rw [hfb]
      intro hcontra
      exact absurd (Except.error.inj hcontra) (by decide)
    · intro h76
      exfalso
      simp [_SALT_SIZE, _NONCE_SIZE] at hlen
      omega
  · have hct : 16 ≤ (blob.drop (_SALT_SIZE + 32 + _NONCE_SIZE)).length := by
      rw [List.length_drop]
      simp [_SALT_SIZE, _NONCE_SIZE] at hlen ⊢
      omega
    have hctne : blob.drop (_SALT_SIZE + 32 + _NONCE_SIZE) ≠ [] := by
      intro hnil
      rw [hnil] at hct
      simp at hct
    have hfb : EncryptedBlob.from_bytes blob =
        .ok ⟨blob.take _SALT_SIZE, (blob.drop _SALT_SIZE).take 32,
          (blob.drop (_SALT_SIZE + 32)).take _NONCE_SIZE,
          blob.drop (_SALT_SIZE + 32 + _NONCE_SIZE)⟩ := by
      unfold EncryptedBlob.from_bytes
      rw [if_neg hlen]
      simp only
      rw [if_neg hctne]
    constructor
    · rw [hfb]
      intro hcontra
      exact Except.noConfusion hcontra
    · intro h76
      exact ⟨_, hfb, hct⟩

/-- Claim C3: once a blob parses, the password-check comparison decides the
outcome before the AEAD step: on a mismatch `decrypt` fails with the
wrong-password error — the conclusion holds for every primitive bundle, i.e.
for every possible behaviour of AEAD decryption, so AEAD is never consulted —
and when the check passes but AEAD tag verification fails, `decrypt` fails
with the tampered-or-corrupt error; the two failure kinds are distinct and
carry distinct messages. -/
theorem C3_check_precedes_aead (P : CryptoPrimitives) (password : String)
    (blob : List Nat) (b : EncryptedBlob)
    (hfb : EncryptedBlob.from_bytes blob = .ok b) :
    (P.hmacSha256 (_derive_key P password b.salt) passwordCheckMsg ≠ b.password_hmac →
      decrypt P password blob = .error .wrongPassword) ∧
    (P.hmacSha256 (_derive_key P password b.salt) passwordCheckMsg = b.password_hmac →
      P.aesgcmDecrypt (_derive_key P password b.salt) b.nonce b.ciphertext = none →
      decrypt P password blob = .error .tamperedOrCorrupt) ∧
    (DecryptError.wrongPassword ≠ DecryptError.tamperedOrCorrupt ∧
      DecryptError.wrongPassword.message ≠ DecryptError.tamperedOrCorrupt.message) := by
  refine ⟨?_, ?_, by decide, by decide⟩
  · intro hne
    rw [decrypt_eq_of_from_bytes P password blob b hfb]
    rw [if_neg hne]
  · intro heq hnone
    rw [decrypt_eq_of_from_bytes P password blob b hfb]
    rw [if_pos heq, hnone]

set_option maxRecDepth 100000 in
/-- Witness for C3: decrypting `c3Blob` with a wrong password fails with the
wrong-password error, and decrypting the tampered copy with the correct
password fails with the tampered-or-corrupt error. -/
theorem C3_witness :
    decrypt toyPrims "xx" c3Blob = .error .wrongPassword ∧
      decrypt toyPrims "pw" c3Tampered = .error .tamperedOrCorrupt := by
  constructor
  · exact (C3_check_precedes_aead toyPrims "xx" c3Blob c3Parsed (by decide)).1 (by decide)
  · exact (C3_check_precedes_aead toyPrims "pw" c3Tampered c3TamperedParsed
      (by decide)).2.1 (by decide) (by decide)

/-- Counterexample to C4 as stated: at the empty blob (with any password),
`is_password_correct` returns `false` while `decrypt` fails with the
malformed-blob error, not the wrong-password error, so the stated
equivalence fails. -/
theorem C4_counterexample :
    ¬(is_password_correct toyPrims "" [] = true ↔
        decrypt toyPrims "" [] ≠ .error .wrongPassword) := by
  decide

/-- Claim C4, corrected: for every primitive bundle, password and blob,
`is_password_correct` returns `true` exactly when `decrypt` fails with
neither the malformed-blob error nor the wrong-password error (it either
succeeds or fails only with the tampered-or-corrupt error). On malformed
blobs the gate returns `false` while `decrypt` raises the malformed-blob
error, not the wrong-password error. -/
theorem C4_gate_decrypt_agreement (P : CryptoPrimitives) (password : String)
    (blob : List Nat) :
    is_password_correct P password blob = true ↔
      (decrypt P password blob ≠ .error (.malformed .tooShort) ∧
        decrypt P password blob ≠ .error (.malformed .emptyCiphertext) ∧
        decrypt P password blob ≠ .error .wrongPassword) := by
  cases hfb : EncryptedBlob.from_bytes blob with
  | error e =>
      rw [gate_eq_of_parse_error P password blob e hfb,
        decrypt_eq_of_parse_error P password blob e hfb]
      cases e with
      | tooShort => simp
      | emptyCiphertext => simp
  | ok b =>
      rw [gate_eq_of_from_bytes P password blob b hfb,
        decrypt_eq_of_from_bytes P password blob b hfb]
      by_cases hmac : P.hmacSha256 (_derive_key P password b.salt) passwordCheckMsg
          = b.password_hmac
      · rw [if_pos hmac]
        cases hdec : P.aesgcmDecrypt (_derive_key P password b.salt) b.nonce b.ciphertext with
        | none => simp [hmac]
        | some pt => simp [hmac]
      · rw [if_neg hmac]
        simp [hmac]

/-- Claim C7: calling `encrypt_with_password` twice is the same as calling
it once — an already-encrypted entity is detected by `is_encrypted` and
skipped, so `encrypted_payload` and the placeholder fields are unchanged by
the second call and no double encryption occurs. Requires only the HMAC
digest-length contract (so the stored blob, hence its base64 form, is
nonempty). -/
theorem C7_encrypt_idempotent (P : CryptoPrimitives) (hH : HmacLen P)
    (l : Log) (password : String) (salt1 nonce1 salt2 nonce2 : List Nat) :
    Log.encrypt_with_password P (Log.encrypt_with_password P l password salt1 nonce1)
        password salt2 nonce2
      = Log.encrypt_with_password P l password salt1 nonce1 := by
  by_cases h : l.is_encrypted = true
  · have h1 : Log.encrypt_with_password P l password salt1 nonce1 = l := by
      unfold Log.encrypt_with_password
      rw [if_pos h]
    rw [h1]
    unfold Log.encrypt_with_password
    rw [if_pos h]
  · have h1 : Log.encrypt_with_password P l password salt1 nonce1 =
        { l with
            encrypted_payload := some (encrypt_to_base64 P password salt1 nonce1
              (utf8Encode (jsonDumpsPayload (logPayload l.description l.body)))),
            description := encryptedPlaceholder,
            body := encryptedPlaceholder } := by
      unfold Log.encrypt_with_password
      rw [if_neg h]
    have hne : encrypt_to_base64 P password salt1 nonce1
        (utf8Encode (jsonDumpsPayload (logPayload l.description l.body))) ≠ "" :=
      b64Encode_ne_empty _ (encrypt_ne_nil P hH password salt1 nonce1 _)
    rw [h1]
    unfold Log.encrypt_with_password
    rw [if_pos ?_]
    show Log.is_encrypted _ = true
    unfold Log.is_encrypted
    simp only
    rw [if_neg hne]

/-- Witness for C7 at a concrete log and concrete random draws. -/
theorem C7_witness :
    Log.encrypt_with_password toyPrims
        (Log.encrypt_with_password toyPrims c7Log "pw" (List.replicate 16 1) (List.replicate 12 2))
        "pw" (List.replicate 16 3) (List.replicate 12 4)
      = Log.encrypt_with_password toyPrims c7Log "pw" (List.replicate 16 1) (List.replicate 12 2) :=
  C7_encrypt_idempotent toyPrims toy_hmac_len c7Log "pw"
    (List.replicate 16 1) (List.replicate 12 2) (List.replicate 16 3) (List.replicate 12 4)

/-- Claim C8: whenever `decrypt_with_password` fails (not encrypted, wrong
password, malformed or tampered payload, or an undecodable decrypted
record), the entity's fields are exactly as they were before the call: every
field assignment in the source happens after the last failure point. -/
theorem C8_decrypt_failure_atomic (P : CryptoPrimitives) (l : Log) (password : String)
    (h : (Log.decrypt_with_password P l password).snd ≠ none) :
    (Log.decrypt_with_password P l password).fst = l := by
  cases hp : l.encrypted_payload with
  | none => simp [Log.decrypt_with_password, hp]
  | some payload =>
      by_cases he : payload = ""
      · simp [Log.decrypt_with_password, hp, he]
      · cases hd : decrypt_from_base64 P password payload with
        | error e => simp [Log.decrypt_with_password, hp, he, hd]
        | ok plaintext =>
            cases hj : P.jsonLoadsPayload plaintext with
            | none => simp [Log.decrypt_with_password, hp, he, hd, hj]
            | some fields =>
                exfalso
                apply h
                simp [Log.decrypt_with_password, hp, he, hd, hj]

/-- Witness for C8: a failing decryption at a concrete log leaves the log
unchanged. -/
theorem C8_witness :
    (Log.decrypt_with_password toyPrims c8Log "pw").fst = c8Log :=
  C8_decrypt_failure_atomic toyPrims c8Log "pw" (by decide)

/-- Counterexample to C9 as stated: the serialized mapping for concrete
sensitive fields does contain an `attachments` entry, so its keys are not
only `description` and `body`. -/
theorem C9_counterexample :
    "attachments" ∈ (logPayload "d" "b").map Prod.fst ∧
      (logPayload "d" "b").map Prod.fst ≠ ["description", "body"] := by
  constructor
  · decide
  · decide

/-- Claim C9, corrected: the record serialized before encryption is the
key/value mapping with keys exactly `description`, `body` and `attachments`,
where `description` and `body` hold the sensitive text fields, the
`attachments` entry is always the empty mapping (no binary data), and
`encrypt_with_password` encrypts exactly the UTF-8 encoding of its JSON
serialization. -/
theorem C9_payload_mapping (P : CryptoPrimitives) (l : Log) (password : String)
    (salt nonce : List Nat) (h : l.is_encrypted = false) :
    (Log.encrypt_with_password P l password salt nonce).encrypted_payload =
      some (encrypt_to_base64 P password salt nonce
        (utf8Encode (jsonDumpsPayload (logPayload l.description l.body)))) ∧
      (logPayload l.description l.body).map Prod.fst =
        ["description", "body", "attachments"] ∧
      (logPayload l.description l.body).lookup "description" = some (.text l.description) ∧
      (logPayload l.description l.body).lookup "body" = some (.text l.body) ∧
      (logPayload l.description l.body).lookup "attachments" = some .emptyMapping := by
  refine ⟨?_, rfl, rfl, rfl, rfl⟩
  unfold Log.encrypt_with_password
  rw [if_neg (by rw [h]; exact Bool.false_ne_true)]

/-- Witness for C9 at a concrete log. -/
theorem C9_witness :
    (Log.encrypt_with_password toyPrims c9Log "pw"
        (List.replicate 16 0) (List.replicate 12 0)).encrypted_payload =
      some (encrypt_to_base64 toyPrims "pw" (List.replicate 16 0) (List.replicate 12 0)
        (utf8Encode (jsonDumpsPayload (logPayload c9Log.description c9Log.body)))) ∧
      (logPayload c9Log.description c9Log.body).map Prod.fst =
        ["description", "body", "attachments"] ∧
      (logPayload c9Log.description c9Log.body).lookup "description" =
        some (.text c9Log.description) ∧
      (logPayload c9Log.description c9Log.body).lookup "body" = some (.text c9Log.body) ∧
      (logPayload c9Log.description c9Log.body).lookup "attachments" = some .emptyMapping :=
  C9_payload_mapping toyPrims c9Log "pw" (List.replicate 16 0) (List.replicate 12 0) (by decide)

set_option maxRecDepth 100000 in
/-- Witness for C4 at a concrete well-formed blob with the correct
password: the gate returns `true` and `decrypt` fails with none of the
malformed-blob and wrong-password errors. -/
theorem C4_witness :
    is_password_correct toyPrims "pw" c3Blob = true ↔
      (decrypt toyPrims "pw" c3Blob ≠ .error (.malformed .tooShort) ∧
        decrypt toyPrims "pw" c3Blob ≠ .error (.malformed .emptyCiphertext) ∧
        decrypt toyPrims "pw" c3Blob ≠ .error .wrongPassword) :=
  C4_gate_decrypt_agreement toyPrims "pw" c3Blob

set_option maxRecDepth 100000 in
/-- Witness for C10 at a concrete 79-byte blob: parsing succeeds with a
ciphertext slice of at least 16 bytes, discharging the length hypothesis
there. -/
theorem C10_witness :
    EncryptedBlob.from_bytes c3Blob ≠ .error .emptyCiphertext ∧
      (∃ b, EncryptedBlob.from_bytes c3Blob = .ok b ∧ 16 ≤ b.ciphertext.length) :=
  ⟨(C10_empty_ciphertext_unreachable c3Blob).1,
    (C10_empty_ciphertext_unreachable c3Blob).2 (by decide)⟩
